import Mathlib

/-!
Verification of the correlation engine in `live/query.py` (pylive).

The Python `Query` singleton turns asynchronous OSC messaging into a
synchronous request/response API.  We embed its state and operations
shallowly:

* `LiveState` carries the fields set up in `Query.__init__`:
  `handlers` (address → ordered callback list), `osc_server_events`
  (address → `threading.Event`, modelled by a fresh numeric event id),
  `query_address`, `query_rv`, `beat_callback`, `startup_callback`.
  `signalled` records which event objects have had `.set()` called;
  `nextEventId` generates fresh event identities.
* Callbacks are opaque to the engine; we model one by an id and a flag
  saying whether invoking it raises.  Invocations are recorded in a trace.
* `handler` is `Query.handler`, translated branch by branch, returning the
  mutated state, the invocation trace, and the uncaught Python exception,
  if any (mutations performed before a raise persist, as in Python).
* `cmd` is `Query.cmd`: it either appends the message to the transport's
  sent log or raises `LiveConnectionError` with the send-failure text.
* `queryRun` composes the phases of `Query.query` for a scenario in which
  a given list of inbound messages is dispatched during the wait window:
  resolve the response address, install a fresh event, set
  `query_address`, reset `query_rv`, send, dispatch the inbound messages,
  then either return `query_rv` (event signalled) or raise the timeout
  `LiveConnectionError`.
-/

namespace PyLive

/-- OSC argument values (numeric, string, boolean primitives). -/
inductive Value where
  | num (n : Int)
  | str (s : String)
  | boolV (b : Bool)
deriving DecidableEq, Repr

/-- A registered push or startup callback: an identity plus whether a call
to it raises an exception. -/
structure Callback where
  id : Nat
  raises : Bool
deriving DecidableEq, Repr

/-- The beat callback: `Query.handler` inspects its declared arity
(`has_arg`) to decide whether to pass `data[0]`. -/
structure BeatCallback where
  id : Nat
  hasArg : Bool
  raises : Bool
deriving DecidableEq, Repr

/-- Python exceptions that can escape the embedded operations. -/
inductive PyError where
  | liveConnectionError (msg : String)
  | keyError
  | indexError
  | callbackExn (cbId : Nat)
deriving DecidableEq, Repr

/-- Recognises the `LiveConnectionError` exception class. -/
def PyError.isLiveConnectionError : PyError → Bool
  | .liveConnectionError _ => true
  | _ => false

/-- One recorded callback invocation. -/
inductive Inv where
  | push (cbId : Nat) (args : List Value)
  | beat0
  | beat1 (v : Value)
  | startup
deriving DecidableEq, Repr

/-- Whether an invocation is a push-handler invocation. -/
def Inv.isPush : Inv → Bool
  | .push _ _ => true
  | _ => false

/-- Whether an invocation is a beat-callback invocation. -/
def Inv.isBeat : Inv → Bool
  | .beat0 => true
  | .beat1 _ => true
  | _ => false

/-- Association-list lookup (Python `dict` access). -/
def alistLookup {α : Type} (m : List (String × α)) (a : String) : Option α :=
  match m with
  | [] => none
  | (k, v) :: rest => if k = a then some v else alistLookup rest a

/-- Association-list overwrite (Python `d[k] = v`). -/
def alistSet {α : Type} (m : List (String × α)) (a : String) (v : α) :
    List (String × α) :=
  match m with
  | [] => [(a, v)]
  | (k, w) :: rest => if k = a then (k, v) :: rest else (k, w) :: alistSet rest a v

/-- The mutable state of the `Query` singleton (fields from
`Query.__init__`), plus the bookkeeping needed to model `threading.Event`
object identity: `signalled` is the set of event ids that have been
`.set()`, `nextEventId` supplies fresh ids for `threading.Event()`. -/
structure LiveState where
  handlers : List (String × List Callback)
  osc_server_events : List (String × Nat)
  query_address : Option String
  query_rv : List Value
  beat_callback : Option BeatCallback
  startup_callback : Option Callback
  signalled : List Nat
  nextEventId : Nat
deriving DecidableEq, Repr

/-- The state right after `Query.__init__`: empty registry, empty event
table, no pending query, no special callbacks. -/
def initState : LiveState :=
  { handlers := []
    osc_server_events := []
    query_address := none
    query_rv := []
    beat_callback := none
    startup_callback := none
    signalled := []
    nextEventId := 0 }

/-- The callbacks registered for an address (`self.handlers[address]`,
empty when the key is absent). -/
def handlersAt (s : LiveState) (a : String) : List Callback :=
  (alistLookup s.handlers a).getD []

/-- `Query.add_handler`: create the list if absent, then append. -/
def add_handler (s : LiveState) (address : String) (cb : Callback) : LiveState :=
  match alistLookup s.handlers address with
  | none => { s with handlers := s.handlers ++ [(address, [cb])] }
  | some v => { s with handlers := alistSet s.handlers address (v ++ [cb]) }

/-- The `for handler in self.handlers[address]: handler(*data)` loop.
Returns the invocations performed, and the exception that escaped the
loop, if any: a raising callback stops the iteration (there is no
`try`/`except` around it in the source). -/
def runHandlers (cbs : List Callback) (data : List Value) :
    List Inv × Option PyError :=
  match cbs with
  | [] => ([], none)
  | cb :: rest =>
    if cb.raises then ([Inv.push cb.id data], some (PyError.callbackExn cb.id))
    else
      let r := runHandlers rest data
      (Inv.push cb.id data :: r.1, r.2)

/-- Result of one dispatch: the state as mutated up to the point any
exception was raised, the callback invocations performed, and the
uncaught exception if one escaped. -/
structure DispatchResult where
  state : LiveState
  trace : List Inv
  err : Option PyError
deriving Repr

/-- `Query.handler(address, data, types)`, the single dispatch entry point:

1. push delivery: call every callback registered for `address`;
2. correlation: if `address == self.query_address`, do
   `self.query_rv += data`, `self.osc_server_events[address].set()`, and
   `return`;
3. special addresses: `/live/beat` calls the beat callback with `data[0]`
   or no argument depending on its arity; `/remix/oscserver/startup`
   calls the startup callback. -/
def handler (s : LiveState) (address : String) (data : List Value) :
    DispatchResult :=
  match runHandlers (handlersAt s address) data with
  | (tr, some e) => ⟨s, tr, some e⟩
  | (tr, none) =>
    if s.query_address = some address then
      match alistLookup s.osc_server_events address with
      | some ev =>
        ⟨{ s with query_rv := s.query_rv ++ data, signalled := ev :: s.signalled },
          tr, none⟩
      | none => ⟨{ s with query_rv := s.query_rv ++ data }, tr, some PyError.keyError⟩
    else if address = "/live/beat" then
      match s.beat_callback with
      | none => ⟨s, tr, none⟩
      | some bc =>
        if bc.hasArg then
          match data with
          | [] => ⟨s, tr, some PyError.indexError⟩
          | v :: _ =>
            ⟨s, tr ++ [Inv.beat1 v],
              if bc.raises then some (PyError.callbackExn bc.id) else none⟩
        else
          ⟨s, tr ++ [Inv.beat0],
            if bc.raises then some (PyError.callbackExn bc.id) else none⟩
    else if address = "/remix/oscserver/startup" then
      match s.startup_callback with
      | none => ⟨s, tr, none⟩
      | some sc =>
        ⟨s, tr ++ [Inv.startup],
          if sc.raises then some (PyError.callbackExn sc.id) else none⟩
    else ⟨s, tr, none⟩

/-- The exact message of the `LiveConnectionError` raised by `Query.cmd`
on a send failure. -/
def sendErrMsg : String :=
  "Couldn't send message to Live (is LiveOSC present and activated?)"

/-- The exact message of the `LiveConnectionError` raised by `Query.query`
on timeout. -/
def timeoutErrMsg : String :=
  "Timed out waiting for response from LiveOSC. Is Live running and LiveOSC installed?"

/-- `Query.cmd(msg, *args)`: delegate to the transport send (`liblo.send`),
logging the outbound message; any send failure is re-raised as
`LiveConnectionError`.  `sendOk` abstracts whether the transport send
succeeds; `net` is the transport's log of sent messages. -/
def cmd (sendOk : Bool) (msg : String) (args : List Value) (s : LiveState)
    (net : List (String × List Value)) :
    Except PyError (LiveState × List (String × List Value)) :=
  if sendOk then Except.ok (s, net ++ [(msg, args)])
  else Except.error (PyError.liveConnectionError sendErrMsg)

/-- The response-address resolution in `Query.query`: use the
`response_address` keyword if it is truthy, else the request address
(`if response_address: ... else: response_address = msg`). -/
def respAddrOf (msg : String) (override : Option String) : String :=
  match override with
  | some r => if r = "" then msg else r
  | none => msg

/-- Lines 219–226 of `Query.query`: install a fresh `threading.Event` at
the response address (overwriting any prior entry), set `query_address`,
reset `query_rv` to `[]`.  Returns the new state and the fresh event id. -/
def queryInstall (s : LiveState) (respAddr : String) : LiveState × Nat :=
  ({ s with
      osc_server_events := alistSet s.osc_server_events respAddr s.nextEventId
      query_address := some respAddr
      query_rv := []
      nextEventId := s.nextEventId + 1 },
    s.nextEventId)

/-- Dispatch a list of inbound messages in order, threading the state. -/
def dispatchAll (s : LiveState) (msgs : List (String × List Value)) : LiveState :=
  match msgs with
  | [] => s
  | (a, d) :: rest => dispatchAll (handler s a d).state rest

/-- Lines 232–242 of `Query.query`: look up
`self.osc_server_events[response_address]` and wait; if the event was
signalled return `self.query_rv`, else raise the timeout
`LiveConnectionError`. -/
def queryWait (s : LiveState) (respAddr : String) : Except PyError (List Value) :=
  match alistLookup s.osc_server_events respAddr with
  | none => Except.error PyError.keyError
  | some ev =>
    if ev ∈ s.signalled then Except.ok s.query_rv
    else Except.error (PyError.liveConnectionError timeoutErrMsg)

/-- Outcome of one `Query.query` scenario: the returned value or raised
exception, the final engine state, and the transport's sent log. -/
structure QueryOutcome where
  result : Except PyError (List Value)
  state : LiveState
  sent : List (String × List Value)
deriving Repr

/-- `Query.query(msg, *args, response_address=…)` in a scenario where the
transport send either succeeds or fails (`sendOk`) and the messages in
`inbound` are dispatched by the receiver thread during the wait window. -/
def queryRun (s : LiveState) (msg : String) (args : List Value)
    (override : Option String) (sendOk : Bool)
    (inbound : List (String × List Value)) : QueryOutcome :=
  let respAddr := respAddrOf msg override
  let inst := queryInstall s respAddr
  match cmd sendOk msg args inst.1 [] with
  | Except.error e => ⟨Except.error e, inst.1, []⟩
  | Except.ok (s2, net) =>
    let s3 := dispatchAll s2 inbound
    ⟨queryWait s3 respAddr, s3, net⟩

/-- Well-formedness: every signalled event id was generated. -/
def eventsBounded (s : LiveState) : Prop :=
  ∀ e ∈ s.signalled, e < s.nextEventId

instance (s : LiveState) : Decidable (eventsBounded s) := by
  unfold eventsBounded; infer_instance

/-- Concrete state: two callbacks on `/x` (the first raises) while a query
is pending at `/x`. -/
def stateC2 : LiveState :=
  { initState with
      handlers := [("/x", [⟨1, true⟩, ⟨2, false⟩])]
      osc_server_events := [("/x", 0)]
      query_address := some "/x"
      nextEventId := 1 }

/-- Concrete state: a push handler and a beat callback are registered and a
query is pending at `/live/beat`. -/
def stateC3 : LiveState :=
  { initState with
      handlers := [("/live/beat", [⟨5, false⟩])]
      beat_callback := some ⟨6, true, false⟩
      osc_server_events := [("/live/beat", 0)]
      query_address := some "/live/beat"
      nextEventId := 1 }

/-- Concrete state: a zero-argument beat callback is registered and a query
is pending at `/live/beat`. -/
def stateC9 : LiveState :=
  { initState with
      beat_callback := some ⟨7, false, false⟩
      osc_server_events := [("/live/beat", 0)]
      query_address := some "/live/beat"
      nextEventId := 1 }

/-! ### Helper lemmas about the association lists -/

theorem alistLookup_set_self {α : Type} (m : List (String × α)) (a : String) (v : α) :
    alistLookup (alistSet m a v) a = some v := by
  induction m with
  | nil => simp [alistSet, alistLookup]
  | cons kv rest ih =>
    obtain ⟨k, w⟩ := kv
    by_cases h : k = a
    · simp [alistSet, alistLookup, h]
    · simp [alistSet, alistLookup, h, ih]

theorem alistLookup_set_ne {α : Type} (m : List (String × α)) (a b : String) (v : α)
    (hab : b ≠ a) : alistLookup (alistSet m a v) b = alistLookup m b := by
  induction m with
  | nil => simp [alistSet, alistLookup, Ne.symm hab]
  | cons kv rest ih =>
    obtain ⟨k, w⟩ := kv
    by_cases h : k = a
    · subst h
      simp [alistSet, alistLookup, Ne.symm hab]
    · simp [alistSet, alistLookup, h, ih]

theorem alistLookup_append_right {α : Type} (m : List (String × α)) (a b : String)
    (v : α) (hab : b ≠ a) : alistLookup (m ++ [(a, v)]) b = alistLookup m b := by
  induction m with
  | nil => simp [alistLookup, Ne.symm hab]
  | cons kv rest ih =>
    obtain ⟨k, w⟩ := kv
    by_cases h : k = b
    · simp [alistLookup, h]
    · simp [alistLookup, h, ih]

theorem alistLookup_append_self {α : Type} (m : List (String × α)) (a : String)
    (v : α) (hnone : alistLookup m a = none) :
    alistLookup (m ++ [(a, v)]) a = some v := by
  induction m with
  | nil => simp [alistLookup]
  | cons kv rest ih =>
    obtain ⟨k, w⟩ := kv
    by_cases h : k = a
    · simp [alistLookup, h] at hnone
    · simp [alistLookup, h] at hnone ⊢
      exact ih hnone

/-! ### Helper lemmas about the handler registry -/

theorem handlersAt_add_self (s : LiveState) (a : String) (cb : Callback) :
    handlersAt (add_handler s a cb) a = handlersAt s a ++ [cb] := by
  unfold add_handler handlersAt
  rcases h : alistLookup s.handlers a with _ | v
  · simp [alistLookup_append_self s.handlers a [cb] h, h]
  · simp [alistLookup_set_self, h]

theorem handlersAt_foldl_add (s : LiveState) (a : String) (cbs : List Callback) :
    handlersAt (List.foldl (fun st cb => add_handler st a cb) s cbs) a =
      handlersAt s a ++ cbs := by
  induction cbs generalizing s with
  | nil => simp
  | cons cb rest ih =>
    simp only [List.foldl_cons]
    rw [ih, handlersAt_add_self]
    simp

/-! ### Helper lemmas about the push-handler loop -/

theorem runHandlers_ok (cbs : List Callback) (d : List Value)
    (hcb : ∀ cb ∈ cbs, cb.raises = false) :
    runHandlers cbs d = (cbs.map (fun cb => Inv.push cb.id d), none) := by
  induction cbs with
  | nil => rfl
  | cons cb rest ih =>
    have h1 : cb.raises = false := hcb cb (List.mem_cons_self cb rest)
    have h2 : ∀ c ∈ rest, c.raises = false := fun c hc => hcb c (List.mem_cons_of_mem cb hc)
    simp [runHandlers, h1, ih h2]

theorem runHandlers_raise (pre : List Callback) (bad : Callback)
    (post : List Callback) (d : List Value)
    (hpre : ∀ cb ∈ pre, cb.raises = false) (hbad : bad.raises = true) :
    runHandlers (pre ++ bad :: post) d =
      (pre.map (fun cb => Inv.push cb.id d) ++ [Inv.push bad.id d],
        some (PyError.callbackExn bad.id)) := by
  induction pre with
  | nil => simp [runHandlers, hbad]
  | cons cb rest ih =>
    have h1 : cb.raises = false := hpre cb (List.mem_cons_self cb rest)
    have h2 : ∀ c ∈ rest, c.raises = false := fun c hc => hpre c (List.mem_cons_of_mem cb hc)
    simp [runHandlers, h1, ih h2]

theorem pushes_filter (l : List Callback) (d : List Value) :
    (l.map (fun cb => Inv.push cb.id d)).filter Inv.isPush =
      l.map (fun cb => Inv.push cb.id d) := by
  induction l with
  | nil => rfl
  | cons cb rest ih => simp [Inv.isPush, ih]

/-! ### Helper lemmas about the dispatcher -/

theorem handler_correlated (s : LiveState) (a : String) (d : List Value) (ev : Nat)
    (hq : s.query_address = some a)
    (hev : alistLookup s.osc_server_events a = some ev)
    (hcb : ∀ cb ∈ handlersAt s a, cb.raises = false) :
    handler s a d =
      ⟨{ s with query_rv := s.query_rv ++ d, signalled := ev :: s.signalled },
        (handlersAt s a).map (fun cb => Inv.push cb.id d), none⟩ := by
  unfold handler
  rw [runHandlers_ok (handlersAt s a) d hcb]
  simp [hq, hev]

theorem handler_uncorrelated_state (s : LiveState) (a : String) (d : List Value)
    (hq : ¬ s.query_address = some a) :
    (handler s a d).state = s := by
  unfold handler
  repeat' split
  all_goals first
    | rfl
    | (exact absurd (by assumption) hq)

theorem handler_preserves (s : LiveState) (a : String) (d : List Value) :
    (handler s a d).state.handlers = s.handlers ∧
    (handler s a d).state.osc_server_events = s.osc_server_events ∧
    (handler s a d).state.query_address = s.query_address ∧
    (handler s a d).state.beat_callback = s.beat_callback ∧
    (handler s a d).state.startup_callback = s.startup_callback ∧
    (handler s a d).state.nextEventId = s.nextEventId := by
  unfold handler
  repeat' split
  all_goals exact ⟨rfl, rfl, rfl, rfl, rfl, rfl⟩

theorem handler_signalled_mem (s : LiveState) (a : String) (d : List Value) (e : Nat)
    (he : e ∈ (handler s a d).state.signalled) :
    e ∈ s.signalled ∨
      (s.query_address = some a ∧ alistLookup s.osc_server_events a = some e) := by
  unfold handler at he
  split at he
  · exact Or.inl he
  · split at he
    · split at he
      · rcases List.mem_cons.mp he with h1 | h1
        · subst h1
          exact Or.inr ⟨by assumption, by assumption⟩
        · exact Or.inl h1
      · exact Or.inl he
    · repeat' split at he
      all_goals exact Or.inl he

theorem dispatchAll_preserves (s : LiveState)
    (msgs : List (String × List Value)) :
    (dispatchAll s msgs).osc_server_events = s.osc_server_events ∧
    (dispatchAll s msgs).query_address = s.query_address := by
  induction msgs generalizing s with
  | nil => exact ⟨rfl, rfl⟩
  | cons m rest ih =>
    obtain ⟨k, d⟩ := m
    simp only [dispatchAll]
    have hp := handler_preserves s k d
    exact ⟨((ih _).1).trans hp.2.1, ((ih _).2).trans hp.2.2.1⟩

theorem dispatchAll_stale (s : LiveState) (e : Nat)
    (msgs : List (String × List Value))
    (hcur : ∀ a, s.query_address = some a →
      ¬ alistLookup s.osc_server_events a = some e)
    (hs : ¬ e ∈ s.signalled) :
    ¬ e ∈ (dispatchAll s msgs).signalled := by
  induction msgs generalizing s with
  | nil => exact hs
  | cons m rest ih =>
    obtain ⟨k, d⟩ := m
    simp only [dispatchAll]
    have hp := handler_preserves s k d
    apply ih
    · intro a ha
      rw [hp.2.2.1] at ha
      rw [hp.2.1]
      exact hcur a ha
    · intro hmem
      rcases handler_signalled_mem s k d e hmem with h | ⟨h1, h2⟩
      · exact hs h
      · exact hcur k h1 h2

theorem handler_trace_pushes (s : LiveState) (a : String) (d : List Value)
    (hcb : ∀ cb ∈ handlersAt s a, cb.raises = false) :
    ((handler s a d).trace).filter Inv.isPush =
      (handlersAt s a).map (fun cb => Inv.push cb.id d) := by
  unfold handler
  rw [runHandlers_ok (handlersAt s a) d hcb]
  repeat' split
  all_goals simp_all [pushes_filter, Inv.isPush, List.filter_append]
  all_goals subst_vars
  all_goals simp [Inv.isPush]

theorem queryRun_ok_unfold (s : LiveState) (msg : String) (args : List Value)
    (ov : Option String) (inbound : List (String × List Value)) :
    queryRun s msg args ov true inbound =
      ⟨queryWait (dispatchAll (queryInstall s (respAddrOf msg ov)).1 inbound)
          (respAddrOf msg ov),
        dispatchAll (queryInstall s (respAddrOf msg ov)).1 inbound,
        [(msg, args)]⟩ := rfl

theorem queryRun_err_unfold (s : LiveState) (msg : String) (args : List Value)
    (ov : Option String) (inbound : List (String × List Value)) :
    queryRun s msg args ov false inbound =
      ⟨Except.error (PyError.liveConnectionError sendErrMsg),
        (queryInstall s (respAddrOf msg ov)).1, []⟩ := rfl

/-! ### Claim theorems -/

/-- Claim C1: if a query for address `A` is pending (event installed,
`query_address = A`, `query_rv` reset to empty) and the dispatcher is
invoked with an inbound message `(A, V)`, then the dispatcher appends `V`
to the accumulated arguments and signals the wait slot, and the query
returns exactly `V`, in order. -/
theorem query_reply_returns_args (s : LiveState) (A : String) (args V : List Value)
    (hcb : ∀ cb ∈ handlersAt s A, cb.raises = false) :
    (queryRun s A args none true [(A, V)]).result = Except.ok V ∧
    (queryRun s A args none true [(A, V)]).state.query_rv = V ∧
    (queryInstall s A).2 ∈ (queryRun s A args none true [(A, V)]).state.signalled := by
  have hev : alistLookup (queryInstall s A).1.osc_server_events A =
      some s.nextEventId := alistLookup_set_self s.osc_server_events A s.nextEventId
  have hh := handler_correlated (queryInstall s A).1 A V s.nextEventId rfl hev hcb
  have hda : dispatchAll (queryInstall s A).1 [(A, V)] =
      (handler (queryInstall s A).1 A V).state := rfl
  rw [queryRun_ok_unfold]
  show queryWait (dispatchAll (queryInstall s A).1 [(A, V)]) A = Except.ok V ∧
    (dispatchAll (queryInstall s A).1 [(A, V)]).query_rv = V ∧
    (queryInstall s A).2 ∈ (dispatchAll (queryInstall s A).1 [(A, V)]).signalled
  rw [hda, hh]
  refine ⟨?_, by simp [queryInstall], ?_⟩
  · simp [queryWait, queryInstall, alistLookup_set_self]
  · exact List.mem_cons_self _ _

/-- Witness for C1 at a concrete input: a query to `/live/tempo` answered
by an inbound message with `[120]` returns `[120]`. -/
theorem query_reply_returns_args_witness :
    (∀ cb ∈ handlersAt initState "/live/tempo", cb.raises = false) ∧
    (queryRun initState "/live/tempo" [] none true
        [("/live/tempo", [Value.num 120])]).result = Except.ok [Value.num 120] :=
  ⟨by decide, (query_reply_returns_args initState "/live/tempo" [] [Value.num 120]
      (by decide)).1⟩

/-- Claim C10: `cmd` delegates to the transport send and, when the send
succeeds, leaves every piece of engine state (handler registry, pending
event table, pending query address, accumulated reply, signalled events,
special callbacks) unchanged; its only effect is the appended outbound
message. -/
theorem cmd_no_side_effects (sendOk : Bool) (s sF : LiveState) (msg : String)
    (args : List Value) (net netF : List (String × List Value))
    (h : cmd sendOk msg args s net = Except.ok (sF, netF)) :
    sF.handlers = s.handlers ∧ sF.osc_server_events = s.osc_server_events ∧
    sF.query_address = s.query_address ∧ sF.query_rv = s.query_rv ∧
    sF.signalled = s.signalled ∧ sF.beat_callback = s.beat_callback ∧
    sF.startup_callback = s.startup_callback ∧ netF = net ++ [(msg, args)] := by
  unfold cmd at h
  by_cases hs : sendOk = true
  · rw [if_pos hs] at h
    have h2 : (s, net ++ [(msg, args)]) = (sF, netF) := by
      injection h
    have h3 : s = sF := congrArg Prod.fst h2
    have h4 : net ++ [(msg, args)] = netF := congrArg Prod.snd h2
    subst h3
    subst h4
    exact ⟨rfl, rfl, rfl, rfl, rfl, rfl, rfl, rfl⟩
  · rw [if_neg hs] at h
    exact absurd h (by simp)

/-- Witness for C10 at a concrete input. -/
theorem cmd_no_side_effects_witness :
    (cmd true "/live/tempo" [Value.num 110] initState [] =
      Except.ok (initState, [("/live/tempo", [Value.num 110])])) ∧
    [("/live/tempo", [Value.num 110])] =
      [] ++ [("/live/tempo", [Value.num 110])] :=
  ⟨rfl, (cmd_no_side_effects true initState initState "/live/tempo"
      [Value.num 110] [] [("/live/tempo", [Value.num 110])] rfl).2.2.2.2.2.2.2⟩

/-- Counterexample to C5 as stated: after a send failure the query raises
`LiveConnectionError`, but the pending event entry installed at the
response address is still present and `query_address` still points at it
— the pending state is not removed before propagation. -/
theorem send_failure_leaves_pending_entry :
    (queryRun initState "/a" [] none false []).result =
      Except.error (PyError.liveConnectionError sendErrMsg) ∧
    alistLookup (queryRun initState "/a" [] none false []).state.osc_server_events
        "/a" = some 0 ∧
    (queryRun initState "/a" [] none false []).state.query_address = some "/a" :=
  ⟨rfl, rfl, rfl⟩

/-- Claim C5 (amended): when the underlying send fails, the
`LiveConnectionError` propagates immediately to the caller and nothing is
sent, but the pending entry installed for the effective response address
is NOT removed: the event stays in the table and `query_address` remains
set to the response address. -/
theorem send_failure_propagates_entry_remains (s : LiveState) (msg : String)
    (args : List Value) (ov : Option String) :
    (queryRun s msg args ov false []).result =
      Except.error (PyError.liveConnectionError sendErrMsg) ∧
    alistLookup (queryRun s msg args ov false []).state.osc_server_events
        (respAddrOf msg ov) = some s.nextEventId ∧
    (queryRun s msg args ov false []).state.query_address =
      some (respAddrOf msg ov) ∧
    (queryRun s msg args ov false []).sent = [] := by
  refine ⟨rfl, ?_, rfl, rfl⟩
  show alistLookup (alistSet s.osc_server_events (respAddrOf msg ov) s.nextEventId)
      (respAddrOf msg ov) = some s.nextEventId
  exact alistLookup_set_self _ _ _

/-- Counterexample to C4 as stated: the timeout failure is not an error
class distinct from the send failure — both raise `LiveConnectionError`
(the timeout raise at line 240 and the send raise at line 180 use the
same exception class, only the message differs). -/
theorem timeout_raises_live_connection_error :
    (queryRun initState "/live/tempo" [] none true []).result =
      Except.error (PyError.liveConnectionError timeoutErrMsg) ∧
    (queryRun initState "/live/tempo" [] none false []).result =
      Except.error (PyError.liveConnectionError sendErrMsg) :=
  ⟨rfl, rfl⟩

/-- Claim C4 (amended): a query with no matching reply fails with a
timeout error and a failed send fails with a send error; both are
raised as the same exception class `LiveConnectionError`, and the two
failure modes are distinguishable only by their distinct messages. -/
theorem timeout_and_send_failure_same_class (s : LiveState) (msg : String)
    (args : List Value) (ov : Option String) (hWF : eventsBounded s) :
    (queryRun s msg args ov true []).result =
      Except.error (PyError.liveConnectionError timeoutErrMsg) ∧
    (queryRun s msg args ov false []).result =
      Except.error (PyError.liveConnectionError sendErrMsg) ∧
    (PyError.liveConnectionError timeoutErrMsg).isLiveConnectionError = true ∧
    (PyError.liveConnectionError sendErrMsg).isLiveConnectionError = true ∧
    timeoutErrMsg ≠ sendErrMsg := by
  have hne : ¬ s.nextEventId ∈ s.signalled := fun hmem =>
    lt_irrefl _ (hWF _ hmem)
  refine ⟨?_, rfl, rfl, rfl, by decide⟩
  show queryWait (queryInstall s (respAddrOf msg ov)).1 (respAddrOf msg ov) =
    Except.error (PyError.liveConnectionError timeoutErrMsg)
  simp [queryWait, queryInstall, alistLookup_set_self, hne]

/-- Witness for C4's amended theorem at a concrete input. -/
theorem timeout_and_send_failure_same_class_witness :
    eventsBounded initState ∧
    (queryRun initState "/live/tempo" [] none true []).result =
      Except.error (PyError.liveConnectionError timeoutErrMsg) :=
  ⟨by decide, (timeout_and_send_failure_same_class initState "/live/tempo" [] none
      (by decide)).1⟩

/-- Counterexample to C2 as stated: with two callbacks registered on `/x`
(the first raising) and a query pending at `/x`, dispatching one message
leaves the exception uncaught (`err` is set), never invokes the second
callback, and never runs the correlation step (no signal, no appended
arguments). -/
theorem raising_handler_halts_dispatch :
    (handler stateC2 "/x" [Value.num 1]).err = some (PyError.callbackExn 1) ∧
    ¬ Inv.push 2 [Value.num 1] ∈ (handler stateC2 "/x" [Value.num 1]).trace ∧
    (handler stateC2 "/x" [Value.num 1]).state.signalled = [] ∧
    (handler stateC2 "/x" [Value.num 1]).state.query_rv = [] := by decide

/-- Claim C2 (amended): an exception raised inside a registered push
handler is NOT caught at the dispatch boundary: it propagates out of the
dispatcher, the remaining registered callbacks for the address are not
invoked, the correlation step does not run for that message, and the
engine state is left untouched. -/
theorem raising_handler_propagates (s : LiveState) (a : String) (d : List Value)
    (pre : List Callback) (bad : Callback) (post : List Callback)
    (hh : handlersAt s a = pre ++ bad :: post)
    (hpre : ∀ cb ∈ pre, cb.raises = false) (hbad : bad.raises = true) :
    (handler s a d).err = some (PyError.callbackExn bad.id) ∧
    (handler s a d).state = s ∧
    (handler s a d).trace =
      pre.map (fun cb => Inv.push cb.id d) ++ [Inv.push bad.id d] := by
  unfold handler
  rw [hh, runHandlers_raise pre bad post d hpre hbad]
  exact ⟨rfl, rfl, rfl⟩

/-- Witness for C2's amended theorem at a concrete input. -/
theorem raising_handler_propagates_witness :
    handlersAt stateC2 "/x" = [] ++ (⟨1, true⟩ : Callback) :: [⟨2, false⟩] ∧
    (handler stateC2 "/x" [Value.num 1]).state = stateC2 :=
  ⟨by decide, (raising_handler_propagates stateC2 "/x" [Value.num 1] []
      ⟨1, true⟩ [⟨2, false⟩] (by decide) (by decide) rfl).2.1⟩

/-- Counterexample to C3 as stated: with a push handler and a beat
callback both registered and a query pending at `/live/beat`, dispatching
`("/live/beat", [3])` fires the push handler and the correlation step but
returns before step 3, so the registered beat callback is never invoked
— the three steps are not all fired for a correlated special-address
message. -/
theorem correlated_special_skips_beat :
    stateC3.beat_callback = some ⟨6, true, false⟩ ∧
    (handler stateC3 "/live/beat" [Value.num 3]).trace = [Inv.push 5 [Value.num 3]] ∧
    (handler stateC3 "/live/beat" [Value.num 3]).state.signalled = [0] ∧
    (∀ i ∈ (handler stateC3 "/live/beat" [Value.num 3]).trace, i.isBeat = false) := by
  decide

/-- Claim C3 (amended): push delivery and correlation delivery are not
mutually exclusive — a message matching both a registered handler and the
pending response address fires all push handlers in order AND appends its
arguments AND signals the wait slot — but the dispatcher returns right
after the correlation step, so the special-address callbacks
(`/live/beat`, `/remix/oscserver/startup`) do not fire for a correlated
message. -/
theorem correlated_dispatch_fires_push_and_signal (s : LiveState) (a : String)
    (d : List Value) (ev : Nat)
    (hq : s.query_address = some a)
    (hev : alistLookup s.osc_server_events a = some ev)
    (hcb : ∀ cb ∈ handlersAt s a, cb.raises = false) :
    (handler s a d).trace = (handlersAt s a).map (fun cb => Inv.push cb.id d) ∧
    (handler s a d).state.query_rv = s.query_rv ++ d ∧
    (handler s a d).state.signalled = ev :: s.signalled ∧
    (handler s a d).err = none ∧
    ∀ i ∈ (handler s a d).trace, i.isBeat = false ∧ ¬ i = Inv.startup := by
  have hh := handler_correlated s a d ev hq hev hcb
  rw [hh]
  refine ⟨rfl, rfl, rfl, rfl, ?_⟩
  intro i hi
  rcases List.mem_map.mp hi with ⟨cb, _, rfl⟩
  exact ⟨rfl, fun h => Inv.noConfusion h⟩

/-- Witness for C3's amended theorem at a concrete input. -/
theorem correlated_dispatch_fires_push_and_signal_witness :
    stateC3.query_address = some "/live/beat" ∧
    (handler stateC3 "/live/beat" [Value.num 3]).state.signalled = 0 :: [] :=
  ⟨rfl, (correlated_dispatch_fires_push_and_signal stateC3 "/live/beat"
      [Value.num 3] 0 rfl (by decide) (by decide)).2.2.1⟩

/-- Counterexample to C9 as stated: a zero-argument beat callback is
registered, but an inbound `("/live/beat", [42])` arriving while a query
is pending at `/live/beat` is consumed by the correlation step and the
beat callback is not invoked at all. -/
theorem pending_beat_query_skips_callback :
    stateC9.beat_callback = some ⟨7, false, false⟩ ∧
    (handler stateC9 "/live/beat" [Value.num 42]).trace = [] ∧
    (handler stateC9 "/live/beat" [Value.num 42]).err = none := by decide

/-- Claim C9 (amended): when an inbound message arrives at `/live/beat`,
a beat callback is registered, and `/live/beat` is not the currently
pending response address, the callback is invoked exactly once according
to its declared arity: with no argument if it declares none, else with
the first argument of the message. -/
theorem beat_callback_arity_dispatch (s : LiveState) (d : List Value)
    (bc : BeatCallback) (hbc : s.beat_callback = some bc)
    (hnr : bc.raises = false)
    (hq : ¬ s.query_address = some "/live/beat")
    (hcb : ∀ cb ∈ handlersAt s "/live/beat", cb.raises = false) :
    (bc.hasArg = false →
      (handler s "/live/beat" d).trace =
        (handlersAt s "/live/beat").map (fun cb => Inv.push cb.id d) ++ [Inv.beat0] ∧
      (handler s "/live/beat" d).err = none) ∧
    (∀ v vs, bc.hasArg = true → d = v :: vs →
      (handler s "/live/beat" d).trace =
        (handlersAt s "/live/beat").map (fun cb => Inv.push cb.id d) ++ [Inv.beat1 v] ∧
      (handler s "/live/beat" d).err = none) := by
  constructor
  · intro hargf
    unfold handler
    rw [runHandlers_ok _ _ hcb]
    simp [hq, hbc, hargf, hnr]
  · intro v vs hargt hd
    subst hd
    unfold handler
    rw [runHandlers_ok _ _ hcb]
    simp [hq, hbc, hargt, hnr]

/-- Witness for C9's amended theorem at a concrete input: a zero-argument
beat callback is invoked once with no argument on `("/live/beat", [42])`. -/
theorem beat_callback_arity_dispatch_witness :
    (handler { initState with beat_callback := some ⟨7, false, false⟩ }
        "/live/beat" [Value.num 42]).trace = [Inv.beat0] := by
  have h := (beat_callback_arity_dispatch
      { initState with beat_callback := some ⟨7, false, false⟩ }
      [Value.num 42] ⟨7, false, false⟩ rfl rfl (by decide) (by decide)).1 rfl
  simpa using h.1

/-- Claim C6: `query("/a", response_address="/b")` sends the command to
`/a`, and only an inbound message at `/b` resolves the wait (returning
its arguments); an inbound message at `/a` does not resolve it — the
query then times out. -/
theorem response_address_override (s : LiveState) (A B : String)
    (args V d : List Value) (hB : ¬ B = "") (hAB : ¬ A = B)
    (hWF : eventsBounded s)
    (hcbB : ∀ cb ∈ handlersAt s B, cb.raises = false) :
    (queryRun s A args (some B) true [(B, V)]).result = Except.ok V ∧
    (queryRun s A args (some B) true [(B, V)]).sent = [(A, args)] ∧
    (queryRun s A args (some B) true [(A, d)]).result =
      Except.error (PyError.liveConnectionError timeoutErrMsg) ∧
    (queryRun s A args (some B) true [(A, d)]).sent = [(A, args)] := by
  have hresp : respAddrOf A (some B) = B := if_neg hB
  have hev : alistLookup (queryInstall s B).1.osc_server_events B =
      some s.nextEventId := alistLookup_set_self s.osc_server_events B s.nextEventId
  have hne : ¬ s.nextEventId ∈ s.signalled := fun hmem =>
    lt_irrefl _ (hWF _ hmem)
  refine ⟨?_, ?_, ?_, ?_⟩
  · rw [queryRun_ok_unfold, hresp]
    show queryWait (dispatchAll (queryInstall s B).1 [(B, V)]) B = Except.ok V
    have hda : dispatchAll (queryInstall s B).1 [(B, V)] =
        (handler (queryInstall s B).1 B V).state := rfl
    rw [hda, handler_correlated (queryInstall s B).1 B V s.nextEventId rfl hev hcbB]
    simp [queryWait, queryInstall, alistLookup_set_self]
  · rw [queryRun_ok_unfold]
  · rw [queryRun_ok_unfold, hresp]
    show queryWait (dispatchAll (queryInstall s B).1 [(A, d)]) B =
      Except.error (PyError.liveConnectionError timeoutErrMsg)
    have hq : ¬ (queryInstall s B).1.query_address = some A := by
      intro h
      exact hAB (Option.some.inj h).symm
    have hda : dispatchAll (queryInstall s B).1 [(A, d)] =
        (handler (queryInstall s B).1 A d).state := rfl
    rw [hda, handler_uncorrelated_state (queryInstall s B).1 A d hq]
    simp [queryWait, queryInstall, alistLookup_set_self, hne]
  · rw [queryRun_ok_unfold]

/-- Witness for C6 at a concrete input. -/
theorem response_address_override_witness :
    (¬ "/b" = "") ∧ (¬ "/a" = "/b") ∧ eventsBounded initState ∧
    (queryRun initState "/a" [Value.num 1] (some "/b") true
        [("/b", [Value.num 2])]).result = Except.ok [Value.num 2] :=
  ⟨by decide, by decide, by decide,
    (response_address_override initState "/a" "/b" [Value.num 1] [Value.num 2]
      [Value.num 3] (by decide) (by decide) (by decide) (by decide)).1⟩

/-- Claim C7: the pending-query state is one process-wide slot: a second
`query` installation overwrites `query_address` (now the newer response
address), resets `query_rv`, installs a fresh event distinct from the
first query's event, correlation now targets the newer event, and no
sequence of dispatched inbound messages ever signals the first query's
event afterwards — the earlier blocked query can only end by timeout. -/
theorem single_query_slot (s : LiveState) (A1 A2 : String)
    (hWF : eventsBounded s) :
    ¬ (queryInstall s A1).2 = (queryInstall (queryInstall s A1).1 A2).2 ∧
    (queryInstall (queryInstall s A1).1 A2).1.query_address = some A2 ∧
    (queryInstall (queryInstall s A1).1 A2).1.query_rv = [] ∧
    alistLookup (queryInstall (queryInstall s A1).1 A2).1.osc_server_events A2 =
      some (queryInstall (queryInstall s A1).1 A2).2 ∧
    ∀ msgs, ¬ (queryInstall s A1).2 ∈
      (dispatchAll (queryInstall (queryInstall s A1).1 A2).1 msgs).signalled := by
  refine ⟨?_, rfl, rfl, ?_, ?_⟩
  · show ¬ s.nextEventId = s.nextEventId + 1
    exact Nat.ne_of_lt (Nat.lt_succ_self _)
  · show alistLookup (alistSet (alistSet s.osc_server_events A1 s.nextEventId) A2
        (s.nextEventId + 1)) A2 = some (s.nextEventId + 1)
    exact alistLookup_set_self _ _ _
  · intro msgs
    apply dispatchAll_stale
    · intro a ha h2
      have haa : a = A2 := (Option.some.inj ha).symm
      rw [haa] at h2
      have h4 : (some (s.nextEventId + 1) : Option Nat) = some s.nextEventId := by
        rw [← alistLookup_set_self (alistSet s.osc_server_events A1 s.nextEventId)
          A2 (s.nextEventId + 1)]
        exact h2
      exact Nat.succ_ne_self s.nextEventId (Option.some.inj h4)
    · show ¬ s.nextEventId ∈ s.signalled
      intro hmem
      exact lt_irrefl _ (hWF _ hmem)

/-- Witness for C7 at a concrete input: after a second query installation
at `/b`, dispatching messages at both `/a` and `/b` never signals the
first query's event. -/
theorem single_query_slot_witness :
    eventsBounded initState ∧
    ¬ (queryInstall initState "/a").2 ∈
      (dispatchAll (queryInstall (queryInstall initState "/a").1 "/b").1
        [("/a", [Value.num 1]), ("/b", [Value.num 2])]).signalled :=
  ⟨by decide, (single_query_slot initState "/a" "/b" (by decide)).2.2.2.2
    [("/a", [Value.num 1]), ("/b", [Value.num 2])]⟩

/-- Claim C8: `add_handler` appends the callback to the ordered sequence
for the address (creating it if absent, with no duplicate suppression),
so after registering the callbacks `cbs` on one address, a single inbound
message there invokes every registered callback exactly once each, in
registration order (a callback appearing twice is invoked twice). -/
theorem add_handler_append_and_order (s : LiveState) (a : String)
    (cbs : List Callback) (d : List Value) (cb0 : Callback)
    (hcb : ∀ cb ∈ handlersAt s a ++ cbs, cb.raises = false) :
    handlersAt (add_handler s a cb0) a = handlersAt s a ++ [cb0] ∧
    handlersAt (List.foldl (fun st cb => add_handler st a cb) s cbs) a =
      handlersAt s a ++ cbs ∧
    ((handler (List.foldl (fun st cb => add_handler st a cb) s cbs) a d).trace).filter
        Inv.isPush =
      (handlersAt s a ++ cbs).map (fun cb => Inv.push cb.id d) := by
  have hreg := handlersAt_foldl_add s a cbs
  refine ⟨handlersAt_add_self s a cb0, hreg, ?_⟩
  have hcb2 : ∀ cb ∈ handlersAt
      (List.foldl (fun st cb => add_handler st a cb) s cbs) a,
      cb.raises = false := by
    rw [hreg]
    exact hcb
  rw [handler_trace_pushes _ a d hcb2, hreg]

/-- Witness for C8 at a concrete input: registering the same callback
twice on `/y` invokes it twice, in order, for one inbound message. -/
theorem add_handler_append_and_order_witness :
    (∀ cb ∈ handlersAt initState "/y" ++ [(⟨1, false⟩ : Callback), ⟨1, false⟩],
      cb.raises = false) ∧
    ((handler (List.foldl (fun st cb => add_handler st "/y" cb) initState
        ([⟨1, false⟩, ⟨1, false⟩] : List Callback)) "/y" [Value.num 0]).trace).filter
        Inv.isPush =
      (handlersAt initState "/y" ++ ([⟨1, false⟩, ⟨1, false⟩] : List Callback)).map
        (fun cb => Inv.push cb.id [Value.num 0]) :=
  ⟨by decide, (add_handler_append_and_order initState "/y"
      [⟨1, false⟩, ⟨1, false⟩] [Value.num 0] ⟨9, false⟩ (by decide)).2.2⟩

end PyLive
